import Mathlib

/-!
# Verification of `@profullstack/state-manager` (src/index.js)

Shallow embedding of the reactive store in `src/index.js`:

* A JavaScript value is modelled by `Value`; objects and arrays are
  represented by a heap reference (`Value.obj id`), so that decidable
  equality on `Value` is exactly JavaScript `===` (value equality for
  scalars, reference equality for objects/arrays; numbers are modelled
  as integers, so no `NaN`).
* A plain JavaScript object is modelled by `Obj`, its list of own
  enumerable entries in insertion order.  Property read (`target[prop]`)
  is `objGet` (absent keys read as `undefined`); property assignment is
  `objSet` (replace in place if the key is present, append otherwise).
* The store built by `createStore` holds the state object, the `Map` of
  global subscribers and the `Map` of per-property subscribers
  (insertion-ordered lists of `(Symbol id, callback reference)` pairs).
* The proxy `set` trap (lines 40-70 of index.js) is `setTrap`: it writes
  the property, and when the old value differs from the new one (`!==`)
  it invokes first the subscribers registered under exactly that
  property key and then the global subscribers.  Each callback
  invocation is recorded as an `Event` carrying the arguments the
  callback receives and the state object current at that moment.
-/

/-- A JavaScript value as seen by the store.  `obj id` is a reference to
a heap object (object or array); equality on `Value` coincides with
JavaScript `===` on the modelled fragment. -/
inductive Value where
  | undef : Value
  | null : Value
  | bool (b : Bool) : Value
  | num (n : Int) : Value
  | str (s : String) : Value
  | obj (id : Nat) : Value
deriving DecidableEq, Repr

/-- A plain JavaScript object: its own enumerable string-keyed entries in
insertion order. -/
abbrev Obj : Type := List (String × Value)

/-- `objLookup o k` is the entry stored under key `k`, if the key is
present (first occurrence; the lists built by `objSet` have unique
keys). -/
def objLookup : Obj → String → Option Value
  | [], _ => none
  | (k', v') :: rest, k => if k' = k then some v' else objLookup rest k

/-- Property read `target[k]`: an absent key reads as `undefined`. -/
def objGet (o : Obj) (k : String) : Value :=
  (objLookup o k).getD Value.undef

/-- Property assignment `target[k] = v`: replace the existing entry in
place, or append a new entry at the end. -/
def objSet : Obj → String → Value → Obj
  | [], k, v => [(k, v)]
  | (k', v') :: rest, k, v =>
      if k' = k then (k', v) :: rest else (k', v') :: objSet rest k v

/-- A recorded callback invocation.  A per-property subscriber receives
`(value, oldValue)`; a global subscriber receives `({ [prop]: value },
prop)`.  `stateAt` is the content of the state object at the moment the
callback runs (the assignment has already been applied). -/
inductive Event where
  | propCall (subId cbRef : Nat) (value oldValue : Value) (stateAt : Obj) : Event
  | globalCall (subId cbRef : Nat) (changeArg : Obj) (prop : String) (stateAt : Obj) : Event
deriving DecidableEq, Repr

/-- The `Symbol` id under which the invoked callback is registered. -/
def Event.subId : Event → Nat
  | .propCall i _ _ _ _ => i
  | .globalCall i _ _ _ _ => i

/-- The state object the callback observes when it runs. -/
def Event.stateAt : Event → Obj
  | .propCall _ _ _ _ s => s
  | .globalCall _ _ _ _ s => s

/-- A store instance as built by `createStore`: the state object, the
global subscribers `Map` and the per-property subscribers `Map`.
Subscriber entries are `(Symbol id, callback reference)` pairs in
insertion order; callback references are names into an external table of
functions, compared by reference. -/
structure Store where
  state : Obj
  subscribers : List (Nat × Nat)
  propSubscribers : List (String × List (Nat × Nat))
deriving DecidableEq, Repr

/-- `propSubscribers.get(prop)`: the subscriber list registered under
exactly the key `prop` (empty when `propSubscribers.has(prop)` is
false). -/
def propSubsFor : List (String × List (Nat × Nat)) → String → List (Nat × Nat)
  | [], _ => []
  | (p', subs) :: rest, p => if p' = p then subs else propSubsFor rest p

/-- The proxy `set` trap: store `oldValue`, perform the assignment, and
when `oldValue !== value` notify first the subscribers registered under
this exact property key, then the global subscribers, in registration
order.  Returns the updated store and the list of callback invocations
in the order they happen. -/
def setTrap (st : Store) (prop : String) (v : Value) : Store × List Event :=
  let oldValue := objGet st.state prop
  let state' := objSet st.state prop v
  let st' : Store := { st with state := state' }
  if oldValue = v then
    (st', [])
  else
    (st',
      (propSubsFor st.propSubscribers prop).map
        (fun s => Event.propCall s.1 s.2 v oldValue state') ++
      st.subscribers.map
        (fun s => Event.globalCall s.1 s.2 [(prop, v)] prop state'))

/-- `store.set(prop, value)`: assign through the proxy and return the
value. -/
def storeSet (st : Store) (prop : String) (v : Value) :
    Store × List Event × Value :=
  let r := setTrap st prop v
  (r.1, r.2, v)

/-- `store.get(prop)`: read through the proxy. -/
def storeGet (st : Store) (prop : String) : Value :=
  objGet st.state prop

/-- `store.update(updates)`: assign each entry of the updates object in
order; every single assignment goes through the proxy `set` trap and so
dispatches its own notifications immediately. -/
def updateRun (st : Store) : List (String × Value) → Store × List Event
  | [] => (st, [])
  | (k, v) :: rest =>
      let r := setTrap st k v
      let r' := updateRun r.1 rest
      (r'.1, r.2 ++ r'.2)

/-- `store.getState()`: `{ ...stateObj }` — a fresh top-level object
whose entries equal the state object's entries (nested `Value.obj`
references are shared). -/
def storeGetState (st : Store) : Obj :=
  st.state

/-- `store.subscribe(callback)`: insert a fresh `Symbol` id into the
global subscribers `Map`. -/
def storeSubscribe (st : Store) (id cb : Nat) : Store :=
  { st with subscribers := st.subscribers ++ [(id, cb)] }

/-- The unsubscribe closure returned by `subscribe`:
`subscribers.delete(id)`. -/
def unsubGlobal (st : Store) (id : Nat) : Store :=
  { st with subscribers := st.subscribers.filter (fun s => s.1 ≠ id) }

/-- `propSubscribers` update used by `store.on`: create the inner `Map`
for `prop` when absent, then insert the `(id, cb)` entry. -/
def psInsert : List (String × List (Nat × Nat)) → String → Nat → Nat →
    List (String × List (Nat × Nat))
  | [], p, id, cb => [(p, [(id, cb)])]
  | (p', subs) :: rest, p, id, cb =>
      if p' = p then (p', subs ++ [(id, cb)]) :: rest
      else (p', subs) :: psInsert rest p id cb

/-- `store.on(prop, callback)`. -/
def storeOn (st : Store) (prop : String) (id cb : Nat) : Store :=
  { st with propSubscribers := psInsert st.propSubscribers prop id cb }

/-- `propSubscribers` deletion used by the closure returned by
`store.on`: when `propSubscribers.has(prop)`, delete `id` from the inner
`Map`. -/
def psDelete : List (String × List (Nat × Nat)) → String → Nat →
    List (String × List (Nat × Nat))
  | [], _, _ => []
  | (p', subs) :: rest, p, id =>
      if p' = p then (p', subs.filter (fun s => s.1 ≠ id)) :: rest
      else (p', subs) :: psDelete rest p id

/-- The unsubscribe closure returned by `on`. -/
def unsubProp (st : Store) (prop : String) (id : Nat) : Store :=
  { st with propSubscribers := psDelete st.propSubscribers prop id }

/-! ## Basic lemmas about object assignment -/

theorem objLookup_objSet_self (o : Obj) (k : String) (v : Value) :
    objLookup (objSet o k v) k = some v := by
  induction o with
  | nil => simp [objSet, objLookup]
  | cons hd tl ih =>
      by_cases h : hd.1 = k
      · cases hd
        simp_all [objSet, objLookup]
      · cases hd
        simp_all [objSet, objLookup]

theorem objGet_objSet_self (o : Obj) (k : String) (v : Value) :
    objGet (objSet o k v) k = v := by
  simp [objGet, objLookup_objSet_self]

theorem objLookup_objSet_other (o : Obj) (k k' : String) (v : Value)
    (h : k' ≠ k) : objLookup (objSet o k v) k' = objLookup o k' := by
  induction o with
  | nil =>
      simp only [objSet, objLookup]
      rw [if_neg (fun h' => h h'.symm)]
  | cons hd tl ih =>
      cases hd with
      | mk k₀ v₀ =>
          by_cases hk : k₀ = k
          · subst hk
            simp only [objSet, if_pos rfl, objLookup]
            rw [if_neg (fun h' => h h'.symm), if_neg (fun h' => h h'.symm)]
          · simp only [objSet, if_neg hk, objLookup]
            by_cases hk' : k₀ = k'
            · simp [hk']
            · simp [hk', ih]

theorem objGet_objSet_other (o : Obj) (k k' : String) (v : Value)
    (h : k' ≠ k) : objGet (objSet o k v) k' = objGet o k' := by
  simp [objGet, objLookup_objSet_other o k k' v h]

/-- Assigning a value the key already holds leaves the entry list
unchanged. -/
theorem objSet_same (o : Obj) (k : String) (v : Value)
    (h : objLookup o k = some v) : objSet o k v = o := by
  induction o with
  | nil => simp [objLookup] at h
  | cons hd tl ih =>
      cases hd with
      | mk k₀ v₀ =>
          by_cases hk : k₀ = k
          · subst hk
            simp [objLookup] at h
            simp [objSet, h]
          · simp [objLookup, hk] at h
            simp [objSet, hk, ih h]

theorem setTrap_state (st : Store) (k : String) (v : Value) :
    (setTrap st k v).1.state = objSet st.state k v := by
  unfold setTrap
  by_cases h : objGet st.state k = v <;> simp [h]

theorem setTrap_subscribers (st : Store) (k : String) (v : Value) :
    (setTrap st k v).1.subscribers = st.subscribers := by
  unfold setTrap
  by_cases h : objGet st.state k = v <;> simp [h]

theorem setTrap_propSubscribers (st : Store) (k : String) (v : Value) :
    (setTrap st k v).1.propSubscribers = st.propSubscribers := by
  unfold setTrap
  by_cases h : objGet st.state k = v <;> simp [h]

/-- After `update`, a key not named in the remaining updates keeps its
value. -/
theorem updateRun_objGet_notMem (st : Store) (us : List (String × Value))
    (k : String) (hk : k ∉ us.map Prod.fst) :
    objGet (updateRun st us).1.state k = objGet st.state k := by
  induction us generalizing st with
  | nil => simp [updateRun]
  | cons u rest ih =>
      simp only [List.map_cons, List.mem_cons] at hk
      push_neg at hk
      simp only [updateRun]
      rw [ih _ hk.2, setTrap_state, objGet_objSet_other _ _ _ _ hk.1]

/-- C1.  Reading a key after writing it returns the value written:
`store.get(k)` (equally `store.getState()[k]`) after `store.set(k, v)`
is `v`; and after `store.update(updates)`, every key named in the
updates object reads back as the value the updates object gave it
(JavaScript object keys are unique, whence the `Nodup` hypothesis).
`setState` and function-style updates do not exist in this code, so the
corresponding clauses of the claim are vacuous. -/
theorem c1_set_update_get_roundtrip (st : Store) (k : String) (v : Value)
    (us : List (String × Value)) (hnd : (us.map Prod.fst).Nodup)
    (hmem : (k, v) ∈ us) :
    storeGet (storeSet st k v).1 k = v ∧
    objGet (storeGetState (storeSet st k v).1) k = v ∧
    storeGet (updateRun st us).1 k = v := by
  refine ⟨?_, ?_, ?_⟩
  · simp [storeGet, storeSet, setTrap_state, objGet_objSet_self]
  · simp [storeGetState, storeSet, setTrap_state, objGet_objSet_self]
  · induction us generalizing st with
    | nil => cases hmem
    | cons u rest ih =>
        simp only [List.map_cons, List.nodup_cons] at hnd
        rcases List.mem_cons.mp hmem with h | h
        · subst h
          simp only [updateRun, storeGet]
          rw [updateRun_objGet_notMem _ _ _ hnd.1, setTrap_state,
            objGet_objSet_self]
        · exact ih _ hnd.2 h

/-- Witness for C1 at a concrete store and update. -/
theorem c1_witness :
    storeGet (storeSet ⟨[("count", Value.num 0)], [], []⟩ "count" (Value.num 1)).1 "count"
        = Value.num 1 ∧
    objGet (storeGetState (storeSet ⟨[("count", Value.num 0)], [], []⟩ "count" (Value.num 1)).1) "count"
        = Value.num 1 ∧
    storeGet (updateRun ⟨[("count", Value.num 0)], [], []⟩
        [("count", Value.num 1), ("flag", Value.bool true)]).1 "count"
        = Value.num 1 :=
  c1_set_update_get_roundtrip ⟨[("count", Value.num 0)], [], []⟩ "count"
    (Value.num 1) [("count", Value.num 1), ("flag", Value.bool true)]
    (by decide) (by decide)

/-! ## C3: updates that write the current value are no-ops -/

/-- C3.  Writing a value that is `===`-equal to the property's
current value (decidable equality on `Value` is reference equality for
objects/arrays and value equality for scalars) is a no-op: the state
object is unchanged and zero property-scoped and zero global subscriber
callbacks are invoked, both through `store.set` and through
`store.update`. -/
theorem c3_noop_update (st : Store) (k : String) (v : Value)
    (h : objLookup st.state k = some v) :
    setTrap st k v = (st, []) ∧
    storeSet st k v = (st, [], v) ∧
    updateRun st [(k, v)] = (st, []) := by
  have hget : objGet st.state k = v := by simp [objGet, h]
  have hset : objSet st.state k v = st.state := objSet_same st.state k v h
  have htrap : setTrap st k v = (st, []) := by
    unfold setTrap
    simp [hget, hset]
  exact ⟨htrap, by simp [storeSet, htrap], by simp [updateRun, htrap]⟩

/-- Witness for C3: a store with one global and one property subscriber;
re-writing `count` with its current value fires nothing and changes
nothing. -/
theorem c3_witness :
    objLookup (Store.mk [("count", Value.num 0)] [(0, 0)]
        [("count", [(1, 1)])]).state "count" = some (Value.num 0) ∧
    setTrap (Store.mk [("count", Value.num 0)] [(0, 0)]
        [("count", [(1, 1)])]) "count" (Value.num 0)
      = (Store.mk [("count", Value.num 0)] [(0, 0)] [("count", [(1, 1)])], []) :=
  ⟨by decide,
    (c3_noop_update (Store.mk [("count", Value.num 0)] [(0, 0)]
      [("count", [(1, 1)])]) "count" (Value.num 0) (by decide)).1⟩

/-! ## C2: which subscribers fire for a change -/

/-- A store whose state holds the flat key `"user.name"` and which has
one subscriber registered via `on("user", cb)` (subscriber id 0,
callback reference 0) and no global subscribers. -/
def ancestorDemo : Store :=
  { state := [("user.name", Value.str "a")]
    subscribers := []
    propSubscribers := [("user", [(0, 0)])] }

/-- C2 counterexample.  Property keys are opaque flat strings: a
subscriber registered on `"user"` does NOT fire when `"user.name"` is
set to a new value.  In `ancestorDemo` the key `"user.name"` changes
from `"a"` to `"b"`, the subscriber on `"user"` is registered, yet the
dispatch invokes zero callbacks — there is no ancestor-path
notification, refuting the claim that a subscriber on `"user"` fires
when `"user.name"` changes. -/
theorem c2_counterexample :
    objGet ancestorDemo.state "user.name" ≠ Value.str "b" ∧
    propSubsFor ancestorDemo.propSubscribers "user" = [(0, 0)] ∧
    (setTrap ancestorDemo "user.name" (Value.str "b")).2 = [] := by
  refine ⟨by decide, by decide, ?_⟩
  decide

/-- C2 amended.  A change to key `k` notifies exactly the
subscribers registered (via `on`) under the exact string `k`, plus every
global subscriber; dotted names are opaque keys, so a subscriber on
`"user.name"` fires when `"user.name"` is set to a new value and not
when `"user.age"` is, while a subscriber on the "ancestor" key `"user"`
fires in neither case.  Formally: when `k`'s value changes, (1) every
subscriber under `k` is invoked with `(value, oldValue)`; (2) every
property-scoped invocation in the dispatch is of a subscriber registered
under `k` itself; (3) every global subscriber is invoked with
`({ [k]: value }, k)`. -/
theorem c2_exact_key_dispatch (st : Store) (k : String) (v : Value)
    (hchg : objGet st.state k ≠ v) :
    (∀ s ∈ propSubsFor st.propSubscribers k,
        Event.propCall s.1 s.2 v (objGet st.state k) (objSet st.state k v)
          ∈ (setTrap st k v).2) ∧
    (∀ id cb w ow sa,
        Event.propCall id cb w ow sa ∈ (setTrap st k v).2 →
          (id, cb) ∈ propSubsFor st.propSubscribers k ∧
          w = v ∧ ow = objGet st.state k) ∧
    (∀ s ∈ st.subscribers,
        Event.globalCall s.1 s.2 [(k, v)] k (objSet st.state k v)
          ∈ (setTrap st k v).2) := by
  unfold setTrap
  simp only [if_neg hchg]
  refine ⟨?_, ?_, ?_⟩
  · intro s hs
    exact List.mem_append_left _ (List.mem_map.mpr ⟨s, hs, rfl⟩)
  · intro id cb w ow sa hmem
    rcases List.mem_append.mp hmem with h | h
    · rcases List.mem_map.mp h with ⟨s, hs, heq⟩
      cases heq
      exact ⟨hs, rfl, rfl⟩
    · rcases List.mem_map.mp h with ⟨s, _, heq⟩
      cases heq
  · intro s hs
    exact List.mem_append_right _ (List.mem_map.mpr ⟨s, hs, rfl⟩)

/-- Witness for the amended C2: with a subscriber on the exact key
`"user.name"` and one global subscriber, setting `"user.name"` to a new
value invokes both. -/
theorem c2_exact_key_dispatch_witness :
    objGet (Store.mk [("user.name", Value.str "a")] [(5, 7)]
        [("user.name", [(1, 2)])]).state "user.name" ≠ Value.str "b" ∧
    Event.propCall 1 2 (Value.str "b") (Value.str "a")
        [("user.name", Value.str "b")]
      ∈ (setTrap (Store.mk [("user.name", Value.str "a")] [(5, 7)]
          [("user.name", [(1, 2)])]) "user.name" (Value.str "b")).2 ∧
    Event.globalCall 5 7 [("user.name", Value.str "b")] "user.name"
        [("user.name", Value.str "b")]
      ∈ (setTrap (Store.mk [("user.name", Value.str "a")] [(5, 7)]
          [("user.name", [(1, 2)])]) "user.name" (Value.str "b")).2 :=
  ⟨by decide,
    (c2_exact_key_dispatch (Store.mk [("user.name", Value.str "a")] [(5, 7)]
        [("user.name", [(1, 2)])]) "user.name" (Value.str "b")
        (by decide)).1 (1, 2) (by decide),
    (c2_exact_key_dispatch (Store.mk [("user.name", Value.str "a")] [(5, 7)]
        [("user.name", [(1, 2)])]) "user.name" (Value.str "b")
        (by decide)).2.2 (5, 7) (by decide)⟩

/-! ## C4: what state callbacks observe during an update -/

/-- A store holding `{a: 0, b: 0}` with one global subscriber. -/
def multiKeyDemo : Store :=
  { state := [("a", Value.num 0), ("b", Value.num 0)]
    subscribers := [(0, 0)]
    propSubscribers := [] }

/-- C4 counterexample.  `store.update({a: 1, b: 2})` on
`multiKeyDemo` dispatches after EACH key assignment: the first callback
invocation observes the state `{a: 1, b: 0}` — key `a` applied, key `b`
still at its pre-update value — while the update ends with `b = 2`.  A
callback therefore observes a partially-applied multi-key update,
refuting the claim. -/
theorem c4_counterexample :
    ((updateRun multiKeyDemo [("a", Value.num 1), ("b", Value.num 2)]).2.map
        Event.stateAt)
      = [[("a", Value.num 1), ("b", Value.num 0)],
         [("a", Value.num 1), ("b", Value.num 2)]] ∧
    objGet [("a", Value.num 1), ("b", Value.num 0)] "b" = Value.num 0 ∧
    objGet (updateRun multiKeyDemo
        [("a", Value.num 1), ("b", Value.num 2)]).1.state "b" = Value.num 2 := by
  refine ⟨?_, by decide, ?_⟩ <;> decide

/-- C4 amended.  Atomicity holds only per single-property
assignment: `update(updates)` performs one assignment-and-dispatch per
key in order (first conjunct), and within the dispatch of one
assignment every callback observes the same state — the state the trap
just wrote, in which the assigned key holds the new value and every
other key (in particular every later key of a multi-key update) still
holds its previous value. -/
theorem c4_per_assignment_snapshot (st : Store) (k : String) (v : Value)
    (rest : List (String × Value)) :
    (updateRun st ((k, v) :: rest)).2
        = (setTrap st k v).2 ++ (updateRun (setTrap st k v).1 rest).2 ∧
    ∀ e ∈ (setTrap st k v).2,
      e.stateAt = (setTrap st k v).1.state ∧
      objGet e.stateAt k = v ∧
      ∀ k', k' ≠ k → objGet e.stateAt k' = objGet st.state k' := by
  constructor
  · simp [updateRun]
  · intro e he
    have hst : e.stateAt = objSet st.state k v := by
      unfold setTrap at he
      by_cases h : objGet st.state k = v
      · simp [h] at he
      · simp only [if_neg h] at he
        rcases List.mem_append.mp he with hmem | hmem <;>
          · rcases List.mem_map.mp hmem with ⟨s, _, heq⟩
            cases heq
            rfl
    rw [hst, setTrap_state]
    exact ⟨rfl, objGet_objSet_self _ _ _,
      fun k' hk' => objGet_objSet_other _ _ _ _ hk'⟩

/-- Witness for the amended C4 at `multiKeyDemo`: the single callback
fired for the assignment `a := 1` observes `a = 1` and `b` unchanged. -/
theorem c4_per_assignment_snapshot_witness :
    (updateRun multiKeyDemo [("a", Value.num 1), ("b", Value.num 2)]).2
        = (setTrap multiKeyDemo "a" (Value.num 1)).2 ++
          (updateRun (setTrap multiKeyDemo "a" (Value.num 1)).1
            [("b", Value.num 2)]).2 ∧
    (Event.globalCall 0 0 [("a", Value.num 1)] "a"
        [("a", Value.num 1), ("b", Value.num 0)]).stateAt
        = (setTrap multiKeyDemo "a" (Value.num 1)).1.state ∧
    objGet (Event.globalCall 0 0 [("a", Value.num 1)] "a"
        [("a", Value.num 1), ("b", Value.num 0)]).stateAt "b"
        = objGet multiKeyDemo.state "b" :=
  ⟨(c4_per_assignment_snapshot multiKeyDemo "a" (Value.num 1)
      [("b", Value.num 2)]).1,
    ((c4_per_assignment_snapshot multiKeyDemo "a" (Value.num 1)
      [("b", Value.num 2)]).2
      (Event.globalCall 0 0 [("a", Value.num 1)] "a"
        [("a", Value.num 1), ("b", Value.num 0)]) (by decide)).1,
    ((c4_per_assignment_snapshot multiKeyDemo "a" (Value.num 1)
      [("b", Value.num 2)]).2
      (Event.globalCall 0 0 [("a", Value.num 1)] "a"
        [("a", Value.num 1), ("b", Value.num 0)]) (by decide)).2.2 "b"
      (by decide)⟩

/-! ## C5: per-callback error isolation -/

/-- The body of each subscriber invocation in the `set` trap:
`try { callback(...) } catch (error) { console.error(...) }`.  `beh`
gives each callback's behaviour (normal return or thrown error, keyed by
the subscriber's `Symbol` id); a thrown error is caught on the spot and
logged, so the step always returns normally, recording the caught
message. -/
def invokeCaught (beh : Nat → Except String Unit) (e : Event) :
    Except String (Event × Option String) :=
  match beh e.subId with
  | .ok _ => .ok (e, none)
  | .error msg => .ok (e, some msg)

/-- The two `forEach` notification loops of the `set` trap, run in the
exception monad: each callback is invoked under its own `try`/`catch`
(`invokeCaught`), then the loop continues with the remaining
subscribers. -/
def dispatchLoops (beh : Nat → Except String Unit) :
    List Event → Except String (List (Event × Option String))
  | [] => .ok []
  | e :: rest =>
      match invokeCaught beh e with
      | .error msg => .error msg
      | .ok r =>
          match dispatchLoops beh rest with
          | .error msg => .error msg
          | .ok rs => .ok (r :: rs)

/-- The proxy `set` trap with callback behaviour made explicit: perform
the assignment, then run the notification loops with per-callback
`try`/`catch`. -/
def setTrapE (beh : Nat → Except String Unit) (st : Store) (k : String)
    (v : Value) : Except String (Store × List (Event × Option String)) :=
  match dispatchLoops beh (setTrap st k v).2 with
  | .error msg => .error msg
  | .ok anns => .ok ((setTrap st k v).1, anns)

theorem dispatchLoops_ok (beh : Nat → Except String Unit)
    (evs : List Event) :
    dispatchLoops beh evs
      = .ok (evs.map (fun e =>
          (e, match beh e.subId with | .ok _ => none | .error m => some m))) := by
  induction evs with
  | nil => rfl
  | cons e rest ih =>
      simp only [dispatchLoops, invokeCaught, ih]
      cases h : beh e.subId <;> simp [h]

/-- C5.  Subscriber errors are isolated per callback: whatever each
callback does (returns or throws), the trap completes normally (no
exception reaches the caller of `set`/`update` — the result is always
`.ok`), the resulting store is exactly the one `setTrap` computes
(independent of the thrown errors), and EVERY matching subscriber,
property-scoped and global, is still invoked in order — the invocation
list is the full event list, each event annotated with its own caught
error, if any. -/
theorem c5_callback_errors_isolated (beh : Nat → Except String Unit)
    (st : Store) (k : String) (v : Value) :
    setTrapE beh st k v
      = .ok ((setTrap st k v).1,
          (setTrap st k v).2.map (fun e =>
            (e, match beh e.subId with | .ok _ => none | .error m => some m))) := by
  unfold setTrapE
  rw [dispatchLoops_ok]

/-! ## C6: unsubscribe is idempotent and removes only its own entry -/

theorem filter_ne_idem (l : List (Nat × Nat)) (id : Nat) :
    (l.filter (fun s => s.1 ≠ id)).filter (fun s => s.1 ≠ id)
      = l.filter (fun s => s.1 ≠ id) := by
  rw [List.filter_filter]
  simp

theorem psDelete_idem (ps : List (String × List (Nat × Nat))) (p : String)
    (id : Nat) : psDelete (psDelete ps p id) p id = psDelete ps p id := by
  induction ps with
  | nil => rfl
  | cons hd rest ih =>
      cases hd with
      | mk p' subs =>
          by_cases h : p' = p
          · subst h
            simp [psDelete, filter_ne_idem]
          · simp [psDelete, h, ih]

theorem propSubsFor_psDelete_self (ps : List (String × List (Nat × Nat)))
    (p : String) (id : Nat) :
    propSubsFor (psDelete ps p id) p
      = (propSubsFor ps p).filter (fun s => s.1 ≠ id) := by
  induction ps with
  | nil => rfl
  | cons hd rest ih =>
      cases hd with
      | mk p' subs =>
          by_cases h : p' = p
          · subst h
            simp [psDelete, propSubsFor]
          · simp [psDelete, propSubsFor, h, ih]

theorem propSubsFor_psDelete_other (ps : List (String × List (Nat × Nat)))
    (p p' : String) (id : Nat) (h : p' ≠ p) :
    propSubsFor (psDelete ps p id) p' = propSubsFor ps p' := by
  induction ps with
  | nil => rfl
  | cons hd rest ih =>
      cases hd with
      | mk p₀ subs =>
          by_cases h0 : p₀ = p
          · subst h0
            simp only [psDelete, if_pos rfl, propSubsFor]
            rw [if_neg (fun h' => h h'.symm), if_neg (fun h' => h h'.symm)]
          · by_cases h1 : p₀ = p'
            · simp [psDelete, h0, propSubsFor, h1, h]
            · simp [psDelete, h0, propSubsFor, h1, ih]

/-- C6.  The unsubscribe closures returned by `subscribe` and `on`
are idempotent no-ops after the first call (conjuncts 1-2), remove
exactly the entry with their own `Symbol` id — membership of any other
subscription, including one with an identical callback reference, is
preserved (conjuncts 3-4), leave subscriber lists of every other
property untouched (conjunct 5), and every remaining subscription still
fires: after unsubscribing `id`, a change still invokes every remaining
global subscriber (conjunct 6) and every remaining subscriber on the
changed property (conjunct 7). -/
theorem c6_unsubscribe_idempotent_own_entry (st : Store) (p : String)
    (id id' cb' : Nat) :
    unsubGlobal (unsubGlobal st id) id = unsubGlobal st id ∧
    unsubProp (unsubProp st p id) p id = unsubProp st p id ∧
    ((id', cb') ∈ (unsubGlobal st id).subscribers ↔
        (id', cb') ∈ st.subscribers ∧ id' ≠ id) ∧
    ((id', cb') ∈ propSubsFor (unsubProp st p id).propSubscribers p ↔
        (id', cb') ∈ propSubsFor st.propSubscribers p ∧ id' ≠ id) ∧
    (∀ p', p' ≠ p →
        propSubsFor (unsubProp st p id).propSubscribers p'
          = propSubsFor st.propSubscribers p') ∧
    (∀ k v, (id', cb') ∈ st.subscribers → id' ≠ id →
        objGet st.state k ≠ v →
        Event.globalCall id' cb' [(k, v)] k (objSet st.state k v)
          ∈ (setTrap (unsubGlobal st id) k v).2) ∧
    (∀ v, (id', cb') ∈ propSubsFor st.propSubscribers p → id' ≠ id →
        objGet st.state p ≠ v →
        Event.propCall id' cb' v (objGet st.state p) (objSet st.state p v)
          ∈ (setTrap (unsubProp st p id) p v).2) := by
  refine ⟨?_, ?_, ?_, ?_, ?_, ?_, ?_⟩
  · simp [unsubGlobal, filter_ne_idem]
  · simp [unsubProp, psDelete_idem]
  · simp [unsubGlobal, List.mem_filter]
  · simp [unsubProp, propSubsFor_psDelete_self, List.mem_filter]
  · intro p' hp'
    exact propSubsFor_psDelete_other st.propSubscribers p p' id hp'
  · intro k v hmem hne hchg
    unfold setTrap
    simp only [unsubGlobal, if_neg hchg]
    refine List.mem_append_right _ (List.mem_map.mpr ⟨(id', cb'), ?_, rfl⟩)
    simp only [List.mem_filter]
    exact ⟨hmem, by simpa using hne⟩
  · intro v hmem hne hchg
    unfold setTrap
    simp only [unsubProp, if_neg hchg]
    refine List.mem_append_left _ (List.mem_map.mpr ⟨(id', cb'), ?_, rfl⟩)
    rw [propSubsFor_psDelete_self]
    simp only [List.mem_filter]
    exact ⟨hmem, by simpa using hne⟩

/-- Witness for C6: two global subscriptions (ids 0 and 1) sharing the
identical callback reference 9, and two subscriptions on `"count"` (ids
2 and 3, both callback 9).  Unsubscribing id 0 and id 2 is idempotent,
keeps the sibling subscriptions registered, and a change to `"count"`
still fires both survivors. -/
theorem c6_witness :
    unsubGlobal (unsubGlobal (Store.mk [("count", Value.num 0)]
        [(0, 9), (1, 9)] [("count", [(2, 9), (3, 9)])]) 0) 0
      = unsubGlobal (Store.mk [("count", Value.num 0)]
        [(0, 9), (1, 9)] [("count", [(2, 9), (3, 9)])]) 0 ∧
    ((1, 9) ∈ (unsubGlobal (Store.mk [("count", Value.num 0)]
        [(0, 9), (1, 9)] [("count", [(2, 9), (3, 9)])]) 0).subscribers) ∧
    Event.globalCall 1 9 [("count", Value.num 5)] "count"
        [("count", Value.num 5)]
      ∈ (setTrap (unsubGlobal (Store.mk [("count", Value.num 0)]
          [(0, 9), (1, 9)] [("count", [(2, 9), (3, 9)])]) 0)
          "count" (Value.num 5)).2 ∧
    Event.propCall 3 9 (Value.num 5) (Value.num 0) [("count", Value.num 5)]
      ∈ (setTrap (unsubProp (Store.mk [("count", Value.num 0)]
          [(0, 9), (1, 9)] [("count", [(2, 9), (3, 9)])]) "count" 2)
          "count" (Value.num 5)).2 :=
  ⟨(c6_unsubscribe_idempotent_own_entry (Store.mk [("count", Value.num 0)]
      [(0, 9), (1, 9)] [("count", [(2, 9), (3, 9)])]) "count" 0 1 9).1,
    ((c6_unsubscribe_idempotent_own_entry (Store.mk [("count", Value.num 0)]
      [(0, 9), (1, 9)] [("count", [(2, 9), (3, 9)])]) "count" 0 1 9).2.2.1.mpr
      ⟨by decide, by decide⟩),
    ((c6_unsubscribe_idempotent_own_entry (Store.mk [("count", Value.num 0)]
      [(0, 9), (1, 9)] [("count", [(2, 9), (3, 9)])]) "count" 0 1 9).2.2.2.2.2.1
      "count" (Value.num 5) (by decide) (by decide) (by decide)),
    ((c6_unsubscribe_idempotent_own_entry (Store.mk [("count", Value.num 0)]
      [(0, 9), (1, 9)] [("count", [(2, 9), (3, 9)])]) "count" 2 3 9).2.2.2.2.2.2
      (Value.num 5) (by decide) (by decide) (by decide))⟩

/-! ## C8 / C9: the named store registry -/

/-- The module-level `stores` `Map`, mapping names to store instances in
insertion order. -/
abbrev Registry := List (String × Store)

/-- `stores.get(name)` / `stores.has(name)` lookup. -/
def regLookup : Registry → String → Option Store
  | [], _ => none
  | (n', s) :: rest, n => if n' = n then some s else regLookup rest n

/-- The store object built for a fresh name: the state object is
`{ ...initialState }` (a shallow copy holding the same entries), and
both subscriber `Map`s start empty. -/
def mkStore (init : Obj) : Store :=
  { state := init, subscribers := [], propSubscribers := [] }

/-- `createStore(name, initialState)`: when a store with this name
already exists, `console.warn` and return the existing store untouched
— the registry is not modified and the new initial state is ignored;
otherwise build a new store and insert it under the name. -/
def createStore (reg : Registry) (name : String) (init : Obj) :
    Registry × Store :=
  match regLookup reg name with
  | some s => (reg, s)
  | none => (reg ++ [(name, mkStore init)], mkStore init)

/-- The possible results of `getStore`: `stores.get` yields `undefined`
for a missing name, and `x || null` turns any falsy result into
`null`. -/
inductive GetStoreResult where
  | jsUndefined : GetStoreResult
  | jsNull : GetStoreResult
  | store (s : Store) : GetStoreResult
deriving DecidableEq, Repr

/-- `stores.get(name)`. -/
def storesGet (reg : Registry) (name : String) : GetStoreResult :=
  match regLookup reg name with
  | some s => .store s
  | none => .jsUndefined

/-- `x || null`: `undefined` (and `null`) are falsy and give `null`; a
store object is truthy and is returned unchanged. -/
def orNull : GetStoreResult → GetStoreResult
  | .jsUndefined => .jsNull
  | .jsNull => .jsNull
  | .store s => .store s

/-- `getStore(name)`: `stores.get(name) || null`.  It only reads the
registry — by construction it cannot create a store or modify the
`stores` `Map`. -/
def getStore (reg : Registry) (name : String) : GetStoreResult :=
  orNull (storesGet reg name)

theorem regLookup_append_self (reg : Registry) (name : String) (s : Store)
    (h : regLookup reg name = none) :
    regLookup (reg ++ [(name, s)]) name = some s := by
  induction reg with
  | nil => simp [regLookup]
  | cons hd rest ih =>
      cases hd with
      | mk n' s' =>
          by_cases hn : n' = name
          · subst hn
            simp [regLookup] at h
          · simp only [regLookup, if_neg hn] at h
            simpa [regLookup, hn] using ih h

/-- C8.  Calling `createStore` with an already-registered name does
not create a new store and does not overwrite the registered one: the
registry is returned unchanged and the result is the previously
registered instance itself, its state untouched — the new
`initialState` argument is ignored. -/
theorem c8_existing_name_returns_existing (reg : Registry) (name : String)
    (init : Obj) (s : Store) (h : regLookup reg name = some s) :
    createStore reg name init = (reg, s) := by
  unfold createStore
  rw [h]

/-- Witness for C8: re-registering `"default"` with a different initial
state returns the registry and the original store unchanged. -/
theorem c8_witness :
    regLookup [("default", mkStore [("count", Value.num 0)])] "default"
        = some (mkStore [("count", Value.num 0)]) ∧
    createStore [("default", mkStore [("count", Value.num 0)])] "default"
        [("count", Value.num 99)]
      = ([("default", mkStore [("count", Value.num 0)])],
          mkStore [("count", Value.num 0)]) :=
  ⟨by decide,
    c8_existing_name_returns_existing
      [("default", mkStore [("count", Value.num 0)])] "default"
      [("count", Value.num 99)] (mkStore [("count", Value.num 0)])
      (by decide)⟩

/-- C9.  `getStore(name)` returns `null` — not `undefined` — for an
unregistered name (conjunct 1; being a pure read of the registry it
creates nothing), returns exactly the registered instance otherwise
(conjunct 2), and in particular returns precisely the instance that
`createStore` just returned for a fresh name (conjunct 3). -/
theorem c9_getStore_null_or_instance (reg : Registry) (name : String)
    (init : Obj) :
    (regLookup reg name = none → getStore reg name = .jsNull) ∧
    (∀ s, regLookup reg name = some s → getStore reg name = .store s) ∧
    (regLookup reg name = none →
        getStore (createStore reg name init).1 name
          = .store (createStore reg name init).2) := by
  refine ⟨?_, ?_, ?_⟩
  · intro h
    simp [getStore, storesGet, h, orNull]
  · intro s h
    simp [getStore, storesGet, h, orNull]
  · intro h
    unfold createStore
    rw [h]
    simp [getStore, storesGet, regLookup_append_self reg name (mkStore init) h,
      orNull]

/-- Witness for C9: an empty registry yields `null` for `"missing"`, and
after `createStore` the same name yields exactly the new instance. -/
theorem c9_witness :
    getStore ([] : Registry) "missing" = GetStoreResult.jsNull ∧
    getStore (createStore ([] : Registry) "missing"
        [("count", Value.num 0)]).1 "missing"
      = GetStoreResult.store (createStore ([] : Registry) "missing"
        [("count", Value.num 0)]).2 :=
  ⟨(c9_getStore_null_or_instance ([] : Registry) "missing"
      [("count", Value.num 0)]).1 (by decide),
    (c9_getStore_null_or_instance ([] : Registry) "missing"
      [("count", Value.num 0)]).2.2 (by decide)⟩

/-! ## C7 / C10: shallow copies at the heap level

`createStore`'s `let stateObj = { ...initialState }` and `getState`'s
`return { ...stateObj }` are both object-spread copies: a FRESH
top-level object whose entries are copied, while every nested
object/array value is shared by reference.  To reason about sharing we
model the object graph explicitly: a `Heap` maps object ids to their
entry lists, and a `Value.obj i` field points at heap id `i`. -/

/-- The object graph: each allocated object id with its entries. -/
abbrev Heap := List (Nat × Obj)

def heapIds (h : Heap) : List Nat := h.map Prod.fst

/-- The entries of the object at id `i` (first binding wins; ids are
unique in the heaps we build). -/
def heapFind : Heap → Nat → Obj
  | [], _ => []
  | (j, o) :: rest, i => if j = i then o else heapFind rest i

/-- Replace (or allocate) the object at id `i`. -/
def heapWrite : Heap → Nat → Obj → Heap
  | [], i, o => [(i, o)]
  | (j, o') :: rest, i, o =>
      if j = i then (j, o) :: rest else (j, o') :: heapWrite rest i o

/-- An id not yet used by any object of the heap. -/
def heapFresh (h : Heap) : Nat := (heapIds h).foldr max 0 + 1

/-- A plain property assignment `target[k] = v` on the (non-proxy)
object at id `i`: it rewrites that one object in the heap.  No store
code runs on a plain object, so the assignment produces no subscriber
invocations — the event list is empty by the structure of the source:
only the proxy around `stateObj` dispatches, and it is not involved. -/
def plainAssign (h : Heap) (i : Nat) (k : String) (v : Value) :
    Heap × List Event :=
  (heapWrite h i (objSet (heapFind h i) k v), [])

/-- The object-spread copy `{ ...src }`: allocate a fresh object holding
the same entries (nested `Value.obj` references shared), returning the
extended heap and the new object's id. -/
def spreadCopy (h : Heap) (src : Nat) : Heap × Nat :=
  (heapWrite h (heapFresh h) (heapFind h src), heapFresh h)

/-- `createStore`'s construction of the state object,
`let stateObj = { ...initialState }`: the store's state object is a
fresh spread copy of the caller's `initialState` object. -/
def createStateObj (h : Heap) (initId : Nat) : Heap × Nat :=
  spreadCopy h initId

/-- `store.getState()` at heap level: `return { ...stateObj }`. -/
def getStateHeap (h : Heap) (sid : Nat) : Heap × Nat :=
  spreadCopy h sid

theorem le_foldr_max (l : List Nat) (a : Nat) (ha : a ∈ l) :
    a ≤ l.foldr max 0 := by
  induction l with
  | nil => cases ha
  | cons b rest ih =>
      rcases List.mem_cons.mp ha with h | h
      · subst h
        exact Nat.le_max_left _ _
      · exact le_trans (ih h) (Nat.le_max_right _ _)

theorem heapFresh_not_mem (h : Heap) : heapFresh h ∉ heapIds h := by
  intro hmem
  have := le_foldr_max (heapIds h) (heapFresh h) hmem
  simp only [heapFresh] at this
  omega

theorem heapFind_heapWrite_self (h : Heap) (i : Nat) (o : Obj) :
    heapFind (heapWrite h i o) i = o := by
  induction h with
  | nil => simp [heapWrite, heapFind]
  | cons hd rest ih =>
      cases hd with
      | mk j o' =>
          by_cases hj : j = i
          · simp [heapWrite, heapFind, hj]
          · simp [heapWrite, heapFind, hj, ih]

theorem heapFind_heapWrite_other (h : Heap) (i j : Nat) (o : Obj)
    (hij : j ≠ i) : heapFind (heapWrite h i o) j = heapFind h j := by
  induction h with
  | nil =>
      simp only [heapWrite, heapFind]
      rw [if_neg (fun h' => hij h'.symm)]
  | cons hd rest ih =>
      cases hd with
      | mk j' o' =>
          by_cases hj : j' = i
          · subst hj
            simp only [heapWrite, if_pos rfl, heapFind]
            rw [if_neg (fun h' => hij h'.symm), if_neg (fun h' => hij h'.symm)]
          · by_cases hj2 : j' = j
            · simp [heapWrite, hj, heapFind, hj2, hij]
            · simp [heapWrite, hj, heapFind, hj2, ih]

theorem heapFresh_ne_of_mem (h : Heap) (i : Nat) (hi : i ∈ heapIds h) :
    i ≠ heapFresh h := by
  intro he
  exact heapFresh_not_mem h (he ▸ hi)

/-- C10.  `createStore` builds its state object as the shallow copy
`{ ...initialState }`: afterwards, assigning a top-level key of the
caller's original `initialState` object leaves the store's state object
exactly as it was — the assignment is visible only on the caller's
object — and, being a plain assignment on a non-proxy object, it
produces no subscriber invocation. -/
theorem c10_initial_state_shallow_copied (h : Heap) (initId : Nat)
    (k : String) (v : Value) (hmem : initId ∈ heapIds h) :
    heapFind (plainAssign (createStateObj h initId).1 initId k v).1
        (createStateObj h initId).2
      = heapFind (createStateObj h initId).1 (createStateObj h initId).2 ∧
    heapFind (createStateObj h initId).1 (createStateObj h initId).2
      = heapFind h initId ∧
    (plainAssign (createStateObj h initId).1 initId k v).2 = [] := by
  have hne : initId ≠ heapFresh h := heapFresh_ne_of_mem h initId hmem
  refine ⟨?_, ?_, rfl⟩
  · simp only [createStateObj, spreadCopy, plainAssign]
    rw [heapFind_heapWrite_other _ _ _ _ (fun he => hne he.symm)]
  · simp only [createStateObj, spreadCopy]
    rw [heapFind_heapWrite_self]

/-- Witness for C10: `initialState = {count: 0}` at heap id 0; after
`createStore`, the assignment `initialState.count = 99` leaves the
store's state object holding `count = 0`. -/
theorem c10_witness :
    heapFind (plainAssign
        (createStateObj [(0, [("count", Value.num 0)])] 0).1 0 "count"
        (Value.num 99)).1
        (createStateObj [(0, [("count", Value.num 0)])] 0).2
      = heapFind (createStateObj [(0, [("count", Value.num 0)])] 0).1
        (createStateObj [(0, [("count", Value.num 0)])] 0).2 ∧
    heapFind (createStateObj [(0, [("count", Value.num 0)])] 0).1
        (createStateObj [(0, [("count", Value.num 0)])] 0).2
      = [("count", Value.num 0)] :=
  ⟨(c10_initial_state_shallow_copied [(0, [("count", Value.num 0)])] 0
      "count" (Value.num 99) (by decide)).1,
    by
      rw [(c10_initial_state_shallow_copied [(0, [("count", Value.num 0)])] 0
        "count" (Value.num 99) (by decide)).2.1]
      decide⟩

/-- The heap in which the store's state object (id 0) is
`{user: <obj 1>}` and object 1 is `{name: "x"}`. -/
def nestedDemoHeap : Heap :=
  [(0, [("user", Value.obj 1)]), (1, [("name", Value.str "x")])]

/-- C7 counterexample.  `getState` is only a SHALLOW copy, so a
deep mutation of the returned structure does change the store's
internal state.  Concretely, on `nestedDemoHeap` (state object
`{user: {name: "x"}}`): the snapshot returned by `getState` holds the
very same nested object (heap id 1) as the internal state; assigning
`snapshot.user.name = "y"` — a mutation strictly inside the returned
structure — makes the store's internal `state.user.name` read `"y"`
instead of `"x"`.  This refutes the claim that no mutation of the
returned structure at any depth can change the store's internal
state (there is also no `immutable` option anywhere in this code). -/
theorem c7_counterexample :
    objGet (heapFind (getStateHeap nestedDemoHeap 0).1
        (getStateHeap nestedDemoHeap 0).2) "user" = Value.obj 1 ∧
    objGet (heapFind (getStateHeap nestedDemoHeap 0).1 0) "user"
      = Value.obj 1 ∧
    objGet (heapFind (getStateHeap nestedDemoHeap 0).1 1) "name"
      = Value.str "x" ∧
    objGet (heapFind (plainAssign (getStateHeap nestedDemoHeap 0).1 1
        "name" (Value.str "y")).1 1) "name" = Value.str "y" ∧
    objGet (heapFind (plainAssign (getStateHeap nestedDemoHeap 0).1 1
        "name" (Value.str "y")).1 0) "user" = Value.obj 1 := by
  refine ⟨?_, ?_, ?_, ?_, ?_⟩ <;> decide

/-- C7 amended.  `getState` returns a SHALLOW copy: a fresh
top-level object with the same entries as the state object, so
assigning a top-level key of the returned snapshot leaves the store's
state object unchanged (and, being a plain assignment on a non-proxy
object, fires no subscriber); nested traversable values, however, are
shared live references, so mutating the returned structure at depth two
or more does mutate the store's internal state (counterexample above).
No `immutable` configuration option exists in this code. -/
theorem c7_getState_shallow_copy (h : Heap) (sid : Nat) (k : String)
    (v : Value) (hmem : sid ∈ heapIds h) :
    heapFind (getStateHeap h sid).1 (getStateHeap h sid).2
      = heapFind h sid ∧
    heapFind (plainAssign (getStateHeap h sid).1
        (getStateHeap h sid).2 k v).1 sid
      = heapFind h sid ∧
    (plainAssign (getStateHeap h sid).1 (getStateHeap h sid).2 k v).2
      = [] := by
  have hne : sid ≠ heapFresh h := heapFresh_ne_of_mem h sid hmem
  refine ⟨?_, ?_, rfl⟩
  · simp only [getStateHeap, spreadCopy]
    rw [heapFind_heapWrite_self]
  · simp only [getStateHeap, spreadCopy, plainAssign]
    rw [heapFind_heapWrite_self, heapFind_heapWrite_other _ _ _ _ hne,
      heapFind_heapWrite_other _ _ _ _ hne]

/-- Witness for the amended C7 on `nestedDemoHeap`: assigning the
top-level key `"user"` of the snapshot does not change the store's
state object. -/
theorem c7_getState_shallow_copy_witness :
    heapFind (getStateHeap nestedDemoHeap 0).1
        (getStateHeap nestedDemoHeap 0).2
      = heapFind nestedDemoHeap 0 ∧
    heapFind (plainAssign (getStateHeap nestedDemoHeap 0).1
        (getStateHeap nestedDemoHeap 0).2 "user" Value.null).1 0
      = heapFind nestedDemoHeap 0 :=
  ⟨(c7_getState_shallow_copy nestedDemoHeap 0 "user" Value.null
      (by decide)).1,
    (c7_getState_shallow_copy nestedDemoHeap 0 "user" Value.null
      (by decide)).2.1⟩
